import Mathlib

/-!
Verification of the `@oilstone/plantimer-nativescript-auth0` core
(`packages/nativescript-auth0/common.ts`), an OAuth 2.0
Authorization-Code-with-PKCE client session.

The embedding is a shallow one:

* The two external key/value stores (the secure store holding
  `auth0_refresh_token` / `auth0_access_token`, and the application-settings
  store holding `auth0_access_token_expire` / `auth0_user_info` /
  `auth0_user_logged_in`) are modelled together as a five-field `Storage`
  record of `Option` values, `none` meaning the key is absent.
* JavaScript truthiness on the stored strings and numbers is modelled
  explicitly (`truthyStr`, `truthyNum`): the empty string, `0`, `null` and
  `undefined` are falsy.
* The browser authenticator and the HTTP token endpoint are external
  collaborators; their outcomes are injected as `Except Unit` parameters
  (`Except.error` modelling a thrown/rejected call).
* Thrown errors are modelled with `Except Auth0Err`; `Date.now()` and the
  wall clock are an explicit `now : Nat` parameter in epoch milliseconds.
* The PKCE challenge pipeline (`SHA256` from crypto-es, `Base64.stringify`,
  and the three regex replacements) is implemented concretely: a full
  SHA-256 over the UTF-8 bytes of the verifier, standard base64, and
  character-level replacement/filtering.
-/

set_option maxRecDepth 20000

namespace Auth0

/-! ## SHA-256 (model of crypto-es `SHA256`), over byte lists, word arithmetic
mod 2^32 -/

/-- Modulus for 32-bit word arithmetic. -/
def pow32 : Nat := 4294967296

/-- Right rotation of a 32-bit word. -/
def rotr32 (n x : Nat) : Nat := ((x >>> n) ||| (x <<< (32 - n))) % pow32

/-- Message-schedule sigma-0. -/
def smallSigma0 (x : Nat) : Nat := rotr32 7 x ^^^ rotr32 18 x ^^^ (x >>> 3)

/-- Message-schedule sigma-1. -/
def smallSigma1 (x : Nat) : Nat := rotr32 17 x ^^^ rotr32 19 x ^^^ (x >>> 10)

/-- Compression big sigma-0. -/
def bigSigma0 (x : Nat) : Nat := rotr32 2 x ^^^ rotr32 13 x ^^^ rotr32 22 x

/-- Compression big sigma-1. -/
def bigSigma1 (x : Nat) : Nat := rotr32 6 x ^^^ rotr32 11 x ^^^ rotr32 25 x

/-- Choice function; complement taken inside 32 bits. -/
def chV (e f g : Nat) : Nat := (e &&& f) ^^^ ((e ^^^ 4294967295) &&& g)

/-- Majority function. -/
def majV (a b c : Nat) : Nat := (a &&& b) ^^^ (a &&& c) ^^^ (b &&& c)

/-- Round constants of SHA-256. -/
def sha256K : List Nat :=
  [1116352408, 1899447441, 3049323471, 3921009573, 961987163, 1508970993,
   2453635748, 2870763221, 3624381080, 310598401, 607225278, 1426881987,
   1925078388, 2162078206, 2614888103, 3248222580, 3835390401, 4022224774,
   264347078, 604807628, 770255983, 1249150122, 1555081692, 1996064986,
   2554220882, 2821834349, 2952996808, 3210313671, 3336571891, 3584528711,
   113926993, 338241895, 666307205, 773529912, 1294757372, 1396182291,
   1695183700, 1986661051, 2177026350, 2456956037, 2730485921, 2820302411,
   3259730800, 3345764771, 3516065817, 3600352804, 4094571909, 275423344,
   430227734, 506948616, 659060556, 883997877, 958139571, 1322822218,
   1537002063, 1747873779, 1955562222, 2024104815, 2227730452, 2361852424,
   2428436474, 2756734187, 3204031479, 3329325298]

/-- Eight 32-bit working words of the SHA-256 state. -/
structure Sha256State where
  a : Nat
  b : Nat
  c : Nat
  d : Nat
  e : Nat
  f : Nat
  g : Nat
  h : Nat
deriving DecidableEq

/-- Initial hash value of SHA-256. -/
def sha256H0 : Sha256State :=
  ⟨1779033703, 3144134277, 1013904242, 2773480762, 1359893119, 2600822924, 528734635, 1541459225⟩

/-- Big-endian byte decomposition: `bytesBE k n` is the low `k` bytes of `n`,
most significant first. -/
def bytesBE : Nat → Nat → List Nat
  | 0, _ => []
  | k + 1, n => bytesBE k (n / 256) ++ [n % 256]

/-- SHA-256 message padding: a 0x80 byte, zeros to 56 mod 64, then the
64-bit big-endian bit length. -/
def sha256pad (msg : List Nat) : List Nat :=
  let l := msg.length
  let zeros := (64 - ((l + 9) % 64)) % 64
  msg ++ [0x80] ++ List.replicate zeros 0 ++ bytesBE 8 (l * 8)

/-- Packs a 64-byte block into sixteen big-endian 32-bit words. -/
def wordsOfBlock : List Nat → List Nat
  | a :: b :: c :: d :: rest => (a * 16777216 + b * 65536 + c * 256 + d) :: wordsOfBlock rest
  | _ => []

/-- Extends the sixteen block words to the 64-entry message schedule. -/
def extendSchedule (ws : List Nat) : List Nat :=
  (List.range 48).foldl
    (fun acc _ =>
      let m := acc.length
      let w := (smallSigma1 (acc.getD (m - 2) 0) + acc.getD (m - 7) 0 +
                smallSigma0 (acc.getD (m - 15) 0) + acc.getD (m - 16) 0) % pow32
      acc ++ [w])
    ws

/-- One round of the SHA-256 compression function. -/
def roundStep (w : Sha256State) (kw : Nat × Nat) : Sha256State :=
  let t1 := (w.h + bigSigma1 w.e + chV w.e w.f w.g + kw.2 + kw.1) % pow32
  let t2 := (bigSigma0 w.a + majV w.a w.b w.c) % pow32
  ⟨(t1 + t2) % pow32, w.a, w.b, w.c, (w.d + t1) % pow32, w.e, w.f, w.g⟩

/-- Compresses one 64-byte block into the running state. -/
def processBlock (st : Sha256State) (block : List Nat) : Sha256State :=
  let ws := extendSchedule (wordsOfBlock block)
  let w := (ws.zip sha256K).foldl roundStep st
  ⟨(st.a + w.a) % pow32, (st.b + w.b) % pow32, (st.c + w.c) % pow32, (st.d + w.d) % pow32,
   (st.e + w.e) % pow32, (st.f + w.f) % pow32, (st.g + w.g) % pow32, (st.h + w.h) % pow32⟩

/-- Runs the compression over consecutive 64-byte chunks; the fuel argument
(always at least the number of chunks) keeps the recursion structural. -/
def processChunks : Nat → Sha256State → List Nat → Sha256State
  | 0, st, _ => st
  | _, st, [] => st
  | fuel + 1, st, l => processChunks fuel (processBlock st (l.take 64)) (l.drop 64)

/-- SHA-256 digest (32 bytes) of a byte list. -/
def sha256 (msg : List Nat) : List Nat :=
  let padded := sha256pad msg
  let st := processChunks padded.length sha256H0 padded
  bytesBE 4 st.a ++ bytesBE 4 st.b ++ bytesBE 4 st.c ++ bytesBE 4 st.d ++
  bytesBE 4 st.e ++ bytesBE 4 st.f ++ bytesBE 4 st.g ++ bytesBE 4 st.h

/-- UTF-8 encoding of one character as bytes. -/
def charUtf8 (c : Char) : List Nat :=
  let n := c.toNat
  if n < 0x80 then [n]
  else if n < 0x800 then [0xC0 + n / 64, 0x80 + n % 64]
  else if n < 0x10000 then [0xE0 + n / 4096, 0x80 + n / 64 % 64, 0x80 + n % 64]
  else [0xF0 + n / 262144, 0x80 + n / 4096 % 64, 0x80 + n / 64 % 64, 0x80 + n % 64]

/-- UTF-8 bytes of a string (crypto-es parses string input as UTF-8). -/
def utf8Bytes (s : String) : List Nat := s.data.flatMap charUtf8

/-- Standard base64 alphabet. -/
def b64Alphabet : List Char :=
  "ABCDEFGHIJKLMNOPQRSTUVWXYZabcdefghijklmnopqrstuvwxyz0123456789+/".data

/-- Character of the base64 alphabet at a 6-bit index. -/
def b64Char (n : Nat) : Char := b64Alphabet.getD n (Char.ofNat 65)

/-- Standard base64 encoding with `=` padding (model of crypto-es
`Base64.stringify`). -/
def base64Encode : List Nat → List Char
  | [] => []
  | [a] => [b64Char (a / 4), b64Char (a % 4 * 16), '=', '=']
  | [a, b] => [b64Char (a / 4), b64Char (a % 4 * 16 + b / 16), b64Char (b % 16 * 4), '=']
  | a :: b :: c :: rest =>
      b64Char (a / 4) :: b64Char (a % 4 * 16 + b / 16) ::
      b64Char (b % 16 * 4 + c / 64) :: b64Char (c % 64) :: base64Encode rest

/-- Model of `.replace(/\+/g, '-').replace(/\//g, '_').replace(/=/g, '')`
from `prepareSignInAuthUrl`: global single-character replacements are maps
over the characters, global deletion of `=` is a filter. -/
def urlSafeB64 (s : String) : String :=
  String.mk
    (((s.data.map (fun c => if c = '+' then '-' else c)).map
        (fun c => if c = '/' then '_' else c)).filter (fun c => c != '='))

/-- Challenge derivation from `prepareSignInAuthUrl` line 271:
`Base64.stringify(SHA256(this.verifier))` made URL-safe. -/
def deriveChallenge (verifier : String) : String :=
  urlSafeB64 (String.mk (base64Encode (sha256 (utf8Bytes verifier))))

/-! ## Query-string encoding (`objectToQueryParams`) -/

/-- Hexadecimal digits, uppercase, as used by `encodeURIComponent`. -/
def hexDigits : List Char :=
  ['0', '1', '2', '3', '4', '5', '6', '7', '8', '9', 'A', 'B', 'C', 'D', 'E', 'F']

/-- Percent-escape of one byte. -/
def byteToPercent (b : Nat) : List Char :=
  ['%', hexDigits.getD (b / 16 % 16) '0', hexDigits.getD (b % 16) '0']

/-- Characters `encodeURIComponent` leaves unescaped:
alphanumerics and `- _ . ! ~ * ' ( )`. -/
def uriUnreserved (c : Char) : Bool :=
  c.isAlpha || c.isDigit ||
    ['-', '_', '.', '!', '~', '*', Char.ofNat 39, '(', ')'].contains c

/-- Model of JavaScript `encodeURIComponent`: unreserved characters pass
through, all others are percent-encoded per UTF-8 byte. -/
def encodeURIComponent (s : String) : String :=
  String.mk (s.data.flatMap (fun c =>
    if uriUnreserved c then [c] else (charUtf8 c).flatMap byteToPercent))

/-- Model of JavaScript `Array.join('&')`. -/
def joinAmp : List String → String
  | [] => ""
  | [s] => s
  | s :: rest => s ++ ("&" ++ joinAmp rest)

/-- Renders one query entry as `key=value`, both percent-encoded. At every
call site of `objectToQueryParams` the values are strings or `null`, so the
array- and object-valued branches of the source are never exercised and the
value type is modelled as `Option String` (`none` = `null`/`undefined`). -/
def renderParam (p : String × Option String) : String :=
  encodeURIComponent p.1 ++ "=" ++ encodeURIComponent (p.2.getD "")

/-- Model of `objectToQueryParams`: drops `null`/`undefined` values, renders
the rest joined by `&` behind a `?`, and returns the empty string when no
valid entry remains. -/
def objectToQueryParams (params : List (String × Option String)) : String :=
  let validParams := params.filter (fun p => p.2.isSome)
  if validParams.isEmpty then ""
  else "?" ++ joinAmp (validParams.map renderParam)

/-! ## Data model -/

/-- JavaScript truthiness of a possibly-absent string: `undefined`, `null`
and `""` are falsy. -/
def truthyStr : Option String → Bool
  | none => false
  | some s => s != ""

/-- JavaScript truthiness of a possibly-absent number: `undefined` and `0`
are falsy. -/
def truthyNum : Option Nat → Bool
  | none => false
  | some n => n != 0

/-- The `auth0Config` part of the plugin `Config` (the opaque
`browserConfig` is irrelevant to the claims). Fields are `Option` because
the source reads them off a dynamic object where any may be absent. -/
structure Auth0Config where
  domain : Option String
  clientId : Option String
  audience : Option String
  redirectUri : Option String
  scope : Option String
deriving DecidableEq

/-- The five persisted keys, across the secure store
(`@plantimer/auth0_refresh_token`, `@plantimer/auth0_access_token`) and the
application settings (`@plantimer/auth0_access_token_expire` in epoch
milliseconds, `@plantimer/auth0_user_info`,
`@plantimer/auth0_user_logged_in`). `none` means the key is absent. -/
structure Storage where
  refresh_token : Option String
  access_token : Option String
  access_token_expire : Option Nat
  user_info : Option String
  user_logged_in : Option Bool
deriving DecidableEq

/-- Storage with every key absent. -/
def emptyStorage : Storage := ⟨none, none, none, none, none⟩

/-- Model of `clearStorage`: removes all five keys (the `accessToken$`
notification it also emits is outside the storage model). -/
def clearStorage (st : Storage) : Storage :=
  { st with
    refresh_token := none
    access_token := none
    access_token_expire := none
    user_info := none
    user_logged_in := none }

/-- Body returned by the token endpoint, as consumed by the store helpers. -/
structure TokenSet where
  access_token : Option String
  refresh_token : Option String
  expires_in : Option Nat
deriving DecidableEq

/-- Error taxonomy of the session, with the two wrapping constructors for
the `Auth0Error` re-raises of `signIn` and `logOut`. -/
inductive Auth0Err where
  | configError
  | missingCodeOrVerifier
  | refreshExchange
  | browserFailure
  | httpFailure
  | signInFailure (cause : Auth0Err)
  | logoutFailure (cause : Auth0Err)
deriving DecidableEq

/-- Terminal kind of an `AuthSessionResult` from the in-app browser. -/
inductive ResultType where
  | success
  | cancel
  | dismiss
deriving DecidableEq

/-- Result of `InAppBrowser.openAuth`. -/
structure AuthSessionResult where
  type : ResultType
  url : Option String
deriving DecidableEq

/-! ## TokenStore -/

/-- Model of `storeRefreshToken`: skips the write when the token set has no
(or an empty) `refresh_token`, otherwise overwrites the secure-store key. -/
def storeRefreshToken (json : TokenSet) (st : Storage) : Storage :=
  match json.refresh_token with
  | none => st
  | some r => if r = "" then st else { st with refresh_token := some r }

/-- Model of `storeAccessToken` at wall-clock `now` (epoch milliseconds):
returns the storage unchanged when the set has no (or an empty)
`access_token`; otherwise writes the token and the absolute expiry
`now + expires_in * 1000`. When `expires_in` is absent the source stores a
NaN date; every later read of the expiry is truthiness-guarded, for which
NaN and an absent key behave identically, so that case is modelled as
removing the value. -/
def storeAccessToken (now : Nat) (json : TokenSet) (st : Storage) : Storage :=
  match json.access_token with
  | none => st
  | some a =>
      if a = "" then st
      else
        { st with
          access_token := some a
          access_token_expire :=
            match json.expires_in with
            | some e => some (now + e * 1000)
            | none => none }

/-- Model of `setTokens`: stores the refresh token, then the access token. -/
def setTokens (now : Nat) (json : TokenSet) (st : Storage) : Storage :=
  storeAccessToken now json (storeRefreshToken json st)

/-! ## URL builders -/

/-- JavaScript template interpolation of a possibly-undefined value. -/
def jsStr : Option String → String
  | none => "undefined"
  | some s => s

/-- Model of `x || d` on a possibly-absent string with a string default. -/
def jsOrDefault (o : Option String) (d : String) : String :=
  match o with
  | none => d
  | some s => if s = "" then d else s

/-- Model of `x || null` on a possibly-absent string. -/
def jsOrNull (o : Option String) : Option String :=
  match o with
  | none => none
  | some s => if s = "" then none else some s

/-- The `params` record built by `prepareSignInAuthUrl`, in source order. -/
def signInParams (cfg : Auth0Config) (challenge : String)
    (loginHint connection screenHint : Option String) : List (String × Option String) :=
  [("audience", cfg.audience),
   ("scope", some (jsOrDefault cfg.scope "offline_access openid profile email")),
   ("response_type", some "code"),
   ("client_id", cfg.clientId),
   ("redirect_uri", cfg.redirectUri),
   ("code_challenge", some challenge),
   ("code_challenge_method", some "S256"),
   ("login_hint", jsOrNull loginHint),
   ("connection", jsOrNull connection),
   ("screen_hint", jsOrNull screenHint)]

/-- Model of `prepareSignInAuthUrl`: derives the challenge from the session
verifier, validates `audience`, `client_id` and `redirect_uri` (throwing the
configuration error on any falsy one), and assembles
`https://{domain}/authorize` with the query parameters. -/
def prepareSignInAuthUrl (cfg : Auth0Config) (verifier : String)
    (loginHint connection screenHint : Option String) : Except Auth0Err String :=
  let challenge := deriveChallenge verifier
  let params := signInParams cfg challenge loginHint connection screenHint
  if truthyStr cfg.audience && truthyStr cfg.clientId && truthyStr cfg.redirectUri then
    .ok ("https://" ++ jsStr cfg.domain ++ "/authorize" ++ objectToQueryParams params)
  else .error .configError

/-- The `params` record built by `prepareLogOutAuthUrl`. -/
def logOutParams (cfg : Auth0Config) : List (String × Option String) :=
  [("client_id", cfg.clientId), ("returnTo", cfg.redirectUri)]

/-- Model of `prepareLogOutAuthUrl`: validates `client_id` and `returnTo`
(throwing the configuration error on any falsy one) and assembles
`https://{domain}/v2/logout` with the query parameters. -/
def prepareLogOutAuthUrl (cfg : Auth0Config) : Except Auth0Err String :=
  if truthyStr cfg.clientId && truthyStr cfg.redirectUri then
    .ok ("https://" ++ jsStr cfg.domain ++ "/v2/logout" ++ objectToQueryParams (logOutParams cfg))
  else .error .configError

/-! ## Browser round trip -/

/-- Boolean test of whether `pat` heads the list. -/
def startsWithB : List Char → List Char → Bool
  | [], _ => true
  | _ :: _, [] => false
  | a :: as, b :: bs => (a == b) && startsWithB as bs

/-- Boolean substring test (model of JavaScript `String.includes`). -/
def containsSubB (pat : List Char) : List Char → Bool
  | [] => startsWithB pat []
  | b :: bs => startsWithB pat (b :: bs) || containsSubB pat bs

/-- Model of JavaScript `split(sep)` on the character list of a string. -/
def splitOnChar (sep : Char) : List Char → List (List Char)
  | [] => [[]]
  | c :: rest =>
      if c = sep then [] :: splitOnChar sep rest
      else
        match splitOnChar sep rest with
        | [] => [[c]]
        | s :: ss => (c :: s) :: ss

/-- The code extraction of `fetchCodeInAppBrowser` line 325:
`response.url.split('=')[1]`, `none` when the url has no `=` (JavaScript
`undefined`). -/
def jsSplitSecond (s : String) : Option String :=
  ((splitOnChar '=' s.data)[1]?).map String.mk

/-- Modelled from the spec: the platform `URL`/`URLSearchParams` lookup used
by the passwordless branch (`params.get('login_hint')`) — the query is the
part of the URL after the first `?`, entries are separated by `&`, and the
first entry whose key (the part before its first `=`) matches is returned.
Percent-decoding is elided; no claim depends on the returned value. -/
def getQueryParam (url : String) (key : String) : Option String :=
  match url.splitOn "?" with
  | [] => none
  | _ :: rest =>
      let search := String.intercalate "?" rest
      (search.splitOn "&" |>.filterMap (fun p =>
        match p.splitOn "=" with
        | [] => none
        | k :: vs => if k = key then some (String.intercalate "=" vs) else none)).head?

/-- Model of `fetchCodeInAppBrowser`. The two `InAppBrowser.openAuth` calls
are injected as `r1` and `r2` (`Except.error` = the call threw). A success
whose URL contains `/passwordless` restarts the flow with a recomputed
authorize URL for the email connection; a success with a truthy URL yields
`url.split('=')[1]`; anything else yields no code (`false` in the source,
falsy like the absent case, hence `none`). -/
def fetchCodeInAppBrowser (cfg : Auth0Config) (verifier : String) (authorizeUrl : String)
    (r1 r2 : Except Unit AuthSessionResult) : Except Auth0Err (Option String) :=
  let _ := authorizeUrl
  match r1 with
  | .error _ => .error .browserFailure
  | .ok response =>
      let step2 : Except Auth0Err AuthSessionResult :=
        if response.type = .success &&
            (match response.url with
             | some u => containsSubB "/passwordless".data u.data
             | none => false) then
          match prepareSignInAuthUrl cfg verifier
              (getQueryParam (jsStr response.url) "login_hint") (some "email") none with
          | .error e => .error e
          | .ok _ =>
              match r2 with
              | .error _ => .error .browserFailure
              | .ok resp2 => .ok resp2
        else .ok response
      match step2 with
      | .error e => .error e
      | .ok final =>
          if final.type = .success && truthyStr final.url then
            .ok (jsSplitSecond (jsStr final.url))
          else .ok none

/-! ## Access-token lifecycle -/

/-- Model of `fetchAccessToken`: returns `null` when no refresh token is in
the secure store; otherwise performs the refresh exchange (outcome injected
as `exch`), stores the refresh and access halves of the response, and
returns its `access_token`. A thrown exchange is re-raised wrapped. -/
def fetchAccessToken (exch : Except Unit TokenSet) (now : Nat) (st : Storage) :
    Except Auth0Err (Option String) × Storage :=
  if truthyStr st.refresh_token then
    match exch with
    | .error _ => (.error .refreshExchange, st)
    | .ok json =>
        let st1 := storeRefreshToken json st
        let st2 := storeAccessToken now json st1
        (.ok json.access_token, st2)
  else (.ok none, st)

/-- Model of `getAccessToken` at wall-clock `now`: with `force` the stored
access token is removed first; the stored token is returned when it and the
stored expiry are truthy and `now` is no later than the expiry, and the
refresh path (`fetchAccessToken`) runs in every other case. The
`accessToken$` emission is outside the storage model. -/
def getAccessToken (force : Bool) (exch : Except Unit TokenSet) (now : Nat) (st : Storage) :
    Except Auth0Err (Option String) × Storage :=
  let st0 := if force then { st with access_token := none } else st
  if truthyStr st0.access_token && truthyNum st0.access_token_expire &&
      decide (now ≤ st0.access_token_expire.getD 0) then
    (.ok st0.access_token, st0)
  else fetchAccessToken exch now st0

/-- Model of `fetchRefreshToken` (the code-for-token exchange): throws on a
missing code or verifier, re-raises a thrown HTTP request, and otherwise
stores the refresh and access halves of the response. -/
def fetchRefreshToken (code verifier : String) (exch : Except Unit TokenSet)
    (now : Nat) (st : Storage) : Except Auth0Err Storage :=
  if code = "" || verifier = "" then .error .missingCodeOrVerifier
  else
    match exch with
    | .error _ => .error .httpFailure
    | .ok json => .ok (storeAccessToken now json (storeRefreshToken json st))

/-- The try-block of `signIn`: build the authorize URL, run the browser
round trip, and exchange a truthy code; a falsy code resolves `false` with
no writes. -/
def signInAttempt (cfg : Auth0Config) (verifier : String)
    (loginHint connection : Option String) (r1 r2 : Except Unit AuthSessionResult)
    (exch : Except Unit TokenSet) (now : Nat) (st : Storage) :
    Except Auth0Err (Bool × Storage) :=
  match prepareSignInAuthUrl cfg verifier loginHint connection none with
  | .error e => .error e
  | .ok url =>
      match fetchCodeInAppBrowser cfg verifier url r1 r2 with
      | .error e => .error e
      | .ok code =>
          if truthyStr code then
            match fetchRefreshToken (code.getD "") verifier exch now st with
            | .error e => .error e
            | .ok st2 => .ok (true, st2)
          else .ok (false, st)

/-- Model of `signIn`: the catch-all around the attempt clears the whole
storage and re-raises the failure wrapped as the sign-in error. -/
def signIn (cfg : Auth0Config) (verifier : String)
    (loginHint connection : Option String) (r1 r2 : Except Unit AuthSessionResult)
    (exch : Except Unit TokenSet) (now : Nat) (st : Storage) :
    Except Auth0Err Bool × Storage :=
  match signInAttempt cfg verifier loginHint connection r1 r2 exch now st with
  | .ok (b, st2) => (.ok b, st2)
  | .error e => (.error (.signInFailure e), clearStorage st)

/-- Model of `logOut`: the logout URL is built before the try block, so its
configuration error propagates unwrapped; with the browser available a
`cancel` result aborts with `false` and no writes, any other result clears
the storage and resolves `true`; without the browser the URL is opened
fire-and-forget and the storage is cleared; a thrown browser call is
wrapped as the logout error. -/
def logOut (cfg : Auth0Config) (available : Bool)
    (resp : Except Unit AuthSessionResult) (st : Storage) :
    Except Auth0Err Bool × Storage :=
  match prepareLogOutAuthUrl cfg with
  | .error e => (.error e, st)
  | .ok _ =>
      if available then
        match resp with
        | .error _ => (.error (.logoutFailure .browserFailure), st)
        | .ok r =>
            if r.type = .cancel then (.ok false, st)
            else (.ok true, clearStorage st)
      else (.ok true, clearStorage st)

/-! ## PKCE verifier generation -/

/-- The 62-character alphanumeric alphabet of `getRandomValues`. -/
def possibleChars : String :=
  "ABCDEFGHIJKLMNOPQRSTUVWXYZabcdefghijklmnopqrstuvwxyz0123456789"

/-- Model of `getRandomValues`: sizes outside `[43, 128]` fall back to 128,
and each position takes the alphabet character at an index below 62
(`Math.floor(Math.random() * 62)`), the random draws injected as `rand`. -/
def getRandomValues (size : Int) (rand : Nat → Fin 62) : String :=
  let n : Nat := if 43 ≤ size ∧ size ≤ 128 then size.toNat else 128
  String.mk ((List.range n).map (fun i => possibleChars.data.getD (rand i).val ' '))

/-! ## Definitions following the wording of the specification, for comparison
with the source-derived ones -/

/-- Stated after the claim wording for the extraction: the substring of the
URL after its first `=` character (absent when the URL has no `=`). -/
def afterFirstEq (s : String) : Option String :=
  if s.data.contains '=' then
    some (String.mk ((s.data.dropWhile (fun c => c != '=')).tail))
  else none

/-- Condition (in the truthiness-faithful form) under which `getAccessToken`
answers from the store: a non-empty stored token, a non-zero stored expiry,
and a current time no later than that expiry. -/
def usesStoredToken (now : Nat) (st : Storage) : Bool :=
  truthyStr st.access_token && truthyNum st.access_token_expire &&
    decide (now ≤ st.access_token_expire.getD 0)

/-! ## Helper lemmas -/

theorem truthyStr_iff (o : Option String) :
    truthyStr o = true ↔ ∃ s, o = some s ∧ s ≠ "" := by
  cases o with
  | none => simp [truthyStr]
  | some s => simp [truthyStr]

theorem clearStorage_eq (st : Storage) : clearStorage st = emptyStorage := rfl

theorem splitOnChar_ne_nil (sep : Char) (l : List Char) : splitOnChar sep l ≠ [] := by
  induction l with
  | nil => simp [splitOnChar]
  | cons c rest ih =>
      simp only [splitOnChar]
      split
      · simp
      · split
        · simp
        · simp

theorem splitOnChar_head (sep : Char) (l : List Char) :
    (splitOnChar sep l)[0]? = some (l.takeWhile (fun c => c != sep)) := by
  induction l with
  | nil => simp [splitOnChar]
  | cons c rest ih =>
      simp only [splitOnChar]
      by_cases hc : c = sep
      · simp [hc, List.takeWhile]
      · rw [if_neg hc]
        cases hsp : splitOnChar sep rest with
        | nil => exact absurd hsp (splitOnChar_ne_nil sep rest)
        | cons s ss =>
            rw [hsp] at ih
            simp only [List.getElem?_cons_zero, Option.some.injEq] at ih
            have hbne : (c != sep) = true := bne_iff_ne.mpr hc
            simp [List.takeWhile, hbne, ih]

theorem splitOnChar_get1 (sep : Char) (l : List Char) :
    (splitOnChar sep l)[1]? =
      if l.contains sep then
        some (((l.dropWhile (fun c => c != sep)).tail).takeWhile (fun c => c != sep))
      else none := by
  induction l with
  | nil => simp [splitOnChar]
  | cons c rest ih =>
      simp only [splitOnChar]
      by_cases hc : c = sep
      · rw [if_pos hc]
        have hhead := splitOnChar_head sep rest
        simp [hc, List.dropWhile, hhead]
      · rw [if_neg hc]
        cases hsp : splitOnChar sep rest with
        | nil => exact absurd hsp (splitOnChar_ne_nil sep rest)
        | cons s ss =>
            rw [hsp] at ih
            have hmem : (c :: rest).contains sep = rest.contains sep := by
              simp [List.contains_cons, Ne.symm hc]
            have hbne : (c != sep) = true := bne_iff_ne.mpr hc
            have hdrop : (c :: rest).dropWhile (fun c => c != sep) =
                rest.dropWhile (fun c => c != sep) := by
              simp [List.dropWhile, hbne]
            simp only [List.getElem?_cons_succ] at ih ⊢
            rw [hmem, hdrop]
            exact ih

theorem startsWithB_self_append (pat rest : List Char) :
    startsWithB pat (pat ++ rest) = true := by
  induction pat with
  | nil => simp [startsWithB]
  | cons a as ih => simp [startsWithB, ih]

theorem containsSubB_of_startsWith (pat l : List Char)
    (h : startsWithB pat l = true) : containsSubB pat l = true := by
  cases l with
  | nil => simpa [containsSubB] using h
  | cons b bs => simp [containsSubB, h]

theorem containsSubB_cons (pat : List Char) (c : Char) (l : List Char)
    (h : containsSubB pat l = true) : containsSubB pat (c :: l) = true := by
  cases l with
  | nil =>
      show (startsWithB pat [c] || containsSubB pat []) = true
      rw [Bool.or_eq_true]
      exact Or.inr h
  | cons b bs =>
      show (startsWithB pat (c :: b :: bs) || containsSubB pat (b :: bs)) = true
      simp [h]

theorem containsSubB_append_right (pat l r : List Char)
    (h : containsSubB pat r = true) : containsSubB pat (l ++ r) = true := by
  induction l with
  | nil => simpa using h
  | cons c cs ih => simpa using containsSubB_cons pat c (cs ++ r) ih

theorem startsWithB_append_of (pat l r : List Char)
    (h : startsWithB pat l = true) : startsWithB pat (l ++ r) = true := by
  induction pat generalizing l with
  | nil => simp [startsWithB]
  | cons a as ih =>
      cases l with
      | nil => simp [startsWithB] at h
      | cons b bs =>
          simp only [startsWithB, Bool.and_eq_true] at h
          simpa [startsWithB, h.1] using ih bs h.2

theorem containsSubB_append_left (pat l r : List Char)
    (h : containsSubB pat l = true) : containsSubB pat (l ++ r) = true := by
  induction l with
  | nil =>
      simp only [containsSubB] at h
      exact containsSubB_of_startsWith pat r (startsWithB_append_of pat [] r h)
  | cons c cs ih =>
      simp only [containsSubB, Bool.or_eq_true] at h
      rcases h with h | h
      · exact containsSubB_of_startsWith pat (c :: cs ++ r)
          (startsWithB_append_of pat (c :: cs) r h)
      · simpa [containsSubB] using Or.inr (ih h)

theorem containsSubB_refl (pat : List Char) : containsSubB pat pat = true := by
  have := startsWithB_self_append pat []
  rw [List.append_nil] at this
  exact containsSubB_of_startsWith pat pat this

/-- Substring containment at the string level. -/
def strContains (pat s : String) : Bool := containsSubB pat.data s.data

theorem strContains_append_left (pat s t : String)
    (h : strContains pat s = true) : strContains pat (s ++ t) = true := by
  simpa [strContains, String.data_append] using
    containsSubB_append_left pat.data s.data t.data h

theorem strContains_append_right (pat s t : String)
    (h : strContains pat t = true) : strContains pat (s ++ t) = true := by
  simpa [strContains, String.data_append] using
    containsSubB_append_right pat.data s.data t.data h

theorem strContains_refl (pat : String) : strContains pat pat = true :=
  containsSubB_refl pat.data

theorem strContains_joinAmp (p : String) (parts : List String)
    (h : p ∈ parts) : strContains p (joinAmp parts) = true := by
  induction parts with
  | nil => cases h
  | cons s rest ih =>
      cases rest with
      | nil =>
          rcases List.mem_singleton.mp h with rfl
          exact strContains_refl p
      | cons r rs =>
          rcases List.mem_cons.mp h with rfl | hmem
          · exact strContains_append_left p p ("&" ++ joinAmp (r :: rs)) (strContains_refl p)
          · exact strContains_append_right p s ("&" ++ joinAmp (r :: rs))
              (strContains_append_right p "&" (joinAmp (r :: rs)) (ih hmem))

theorem possibleChars_alphanum :
    ∀ k : Fin 62, (possibleChars.data.getD k.val ' ').isAlphanum = true := by decide

theorem getAccessToken_guard_true (exch : Except Unit TokenSet) (now : Nat) (st : Storage)
    (h : (truthyStr st.access_token && truthyNum st.access_token_expire &&
      decide (now ≤ st.access_token_expire.getD 0)) = true) :
    getAccessToken false exch now st = (.ok st.access_token, st) := by
  show (if (truthyStr st.access_token && truthyNum st.access_token_expire &&
      decide (now ≤ st.access_token_expire.getD 0)) = true
    then ((Except.ok st.access_token : Except Auth0Err (Option String)), st)
    else fetchAccessToken exch now st) = (.ok st.access_token, st)
  rw [if_pos h]

theorem getAccessToken_guard_false (exch : Except Unit TokenSet) (now : Nat) (st : Storage)
    (h : (truthyStr st.access_token && truthyNum st.access_token_expire &&
      decide (now ≤ st.access_token_expire.getD 0)) = false) :
    getAccessToken false exch now st = fetchAccessToken exch now st := by
  show (if (truthyStr st.access_token && truthyNum st.access_token_expire &&
      decide (now ≤ st.access_token_expire.getD 0)) = true
    then ((Except.ok st.access_token : Except Auth0Err (Option String)), st)
    else fetchAccessToken exch now st) = fetchAccessToken exch now st
  rw [if_neg]
  rw [h]
  exact Bool.false_ne_true

theorem urlSafeB64_all_safe (s : String) :
    (urlSafeB64 s).data.all (fun c => !(c == '+' || c == '/' || c == '=')) = true := by
  rw [List.all_eq_true]
  intro c hc
  have hc2 : c ∈ ((s.data.map (fun c => if c = '+' then '-' else c)).map
      (fun c => if c = '/' then '_' else c)).filter (fun c => c != '=') := hc
  rw [List.mem_filter] at hc2
  obtain ⟨hmem, hne⟩ := hc2
  rw [List.mem_map] at hmem
  obtain ⟨b, hb, rfl⟩ := hmem
  rw [List.mem_map] at hb
  obtain ⟨a, _, rfl⟩ := hb
  by_cases h1 : a = '+' <;> by_cases h2 : a = '/' <;>
    simp_all [bne_iff_ne]

/-! ## Concrete fixtures used by witnesses and counterexamples -/

/-- Well-formed configuration. -/
def cfgW : Auth0Config := ⟨some "t.auth0.com", some "c", some "a", some "app://cb", none⟩

/-- Configuration with an absent audience. -/
def cfgBad : Auth0Config := ⟨some "t.auth0.com", some "c", none, some "app://cb", none⟩

/-- Configuration with an empty client id. -/
def cfgNoClient : Auth0Config := ⟨some "t.auth0.com", some "", some "a", some "app://cb", none⟩

/-- Storage with every key present. -/
def stW : Storage := ⟨some "r", some "t", some 5, some "u", some true⟩

/-- Storage holding a token whose stored expiry is the falsy number 0. -/
def stC2 : Storage := ⟨none, some "T", some 0, none, none⟩

/-- Storage holding a non-empty token and a non-zero expiry. -/
def stW2 : Storage := ⟨none, some "T", some 100, none, none⟩

/-- Benign concrete exchange outcome. -/
def exchW : Except Unit TokenSet := .ok ⟨none, none, none⟩

/-- Successful browser outcome carrying a callback URL with one `=`. -/
def r1W : Except Unit AuthSessionResult := .ok ⟨.success, some "app://cb?code=abc"⟩

/-- Cancelled browser outcome. -/
def r2W : Except Unit AuthSessionResult := .ok ⟨.cancel, none⟩

/-- Constant random draw. -/
def randW : Nat → Fin 62 := fun _ => 0

/-- Whether an `Except` outcome is a raised error. -/
def isErr {e a : Type} : Except e a → Bool
  | .error _ => true
  | .ok _ => false

/-! ## Claims -/

/-- C1: whenever a `signIn` run fails (its result is an error), the final
storage has all five keys absent and the raised error is the sign-in
wrapper. -/
theorem signIn_failure_clears_storage (cfg : Auth0Config) (verifier : String)
    (loginHint connection : Option String) (r1 r2 : Except Unit AuthSessionResult)
    (exch : Except Unit TokenSet) (now : Nat) (st : Storage)
    (h : isErr (signIn cfg verifier loginHint connection r1 r2 exch now st).1 = true) :
    (signIn cfg verifier loginHint connection r1 r2 exch now st).2 = emptyStorage ∧
    ∃ e, (signIn cfg verifier loginHint connection r1 r2 exch now st).1 =
      .error (.signInFailure e) := by
  unfold signIn at h ⊢
  revert h
  cases signInAttempt cfg verifier loginHint connection r1 r2 exch now st with
  | ok v =>
      obtain ⟨b, st2⟩ := v
      intro h
      simp [isErr] at h
  | error e =>
      intro h
      exact ⟨rfl, e, rfl⟩

/-- Witness for C1: a concrete sign-in run whose code-for-token exchange
throws; the run fails and the storage comes out fully cleared. -/
theorem signIn_failure_clears_storage_witness :
    isErr (signIn cfgW "v" none none r1W r2W (.error ()) 0 stW).1 = true ∧
    ((signIn cfgW "v" none none r1W r2W (.error ()) 0 stW).2 = emptyStorage ∧
     ∃ e, (signIn cfgW "v" none none r1W r2W (.error ()) 0 stW).1 =
       .error (.signInFailure e)) :=
  ⟨by decide,
   signIn_failure_clears_storage cfgW "v" none none r1W r2W (.error ()) 0 stW (by decide)⟩

/-- C2 counterexample: a stored state with a present token, a present
expiry, and current time no later than the expiry, on which
`getAccessToken` nevertheless does not return the stored token (the stored
expiry 0 is falsy, so the refresh path runs). -/
theorem getAccessToken_claim_counterexample :
    (stC2.access_token.isSome = true ∧ stC2.access_token_expire.isSome = true ∧
      (0 : Nat) ≤ stC2.access_token_expire.getD 0) ∧
    stC2.access_token = some "T" ∧
    (getAccessToken false exchW 0 stC2).1 = .ok none ∧
    (Except.ok (some "T") : Except Auth0Err (Option String)) ≠ .ok none := by
  refine ⟨⟨rfl, rfl, Nat.zero_le _⟩, rfl, rfl, ?_⟩
  intro hcontra
  simp at hcontra

/-- C2 (amended): `getAccessToken` returns the stored token exactly when a
non-empty token is stored, a non-zero expiry is stored, and the current
time is no later than it; in every other case it runs the refresh path. -/
theorem getAccessToken_stored_iff_truthy (exch : Except Unit TokenSet) (now : Nat)
    (st : Storage) :
    (usesStoredToken now st = true →
      getAccessToken false exch now st = (.ok st.access_token, st)) ∧
    (usesStoredToken now st = false →
      getAccessToken false exch now st = fetchAccessToken exch now st) := by
  unfold usesStoredToken getAccessToken
  constructor <;> intro h <;> simp [h]

/-- Witness for the amended C2: a stored non-empty token with expiry 100 at
time 50 is returned as is. -/
theorem getAccessToken_stored_iff_truthy_witness :
    usesStoredToken 50 stW2 = true ∧
    getAccessToken false exchW 50 stW2 = (.ok (some "T"), stW2) :=
  ⟨by decide, (getAccessToken_stored_iff_truthy exchW 50 stW2).1 (by decide)⟩

/-- C3 counterexample: a success callback URL with two `=` characters; the
session extracts the segment between the first and second `=`, not the
whole substring after the first `=`. -/
theorem extractCode_counterexample :
    fetchCodeInAppBrowser cfgW "v" "https://t.auth0.com/authorize"
        (.ok ⟨.success, some "app://cb?code=abc&state=xyz"⟩) (.ok ⟨.cancel, none⟩) =
      .ok (some "abc&state") ∧
    afterFirstEq "app://cb?code=abc&state=xyz" = some "abc&state=xyz" ∧
    ("abc&state" : String) ≠ "abc&state=xyz" :=
  ⟨rfl, rfl, by decide⟩

/-- C3 (amended): the extracted code is the substring after the first `=`
truncated at the next `=` (the second `=`-separated segment of the URL),
and is absent when the URL has no `=`. -/
theorem extractCode_second_segment (s : String) :
    jsSplitSecond s =
      (afterFirstEq s).map (fun t => String.mk (t.data.takeWhile (fun c => c != '='))) := by
  unfold jsSplitSecond afterFirstEq
  rw [splitOnChar_get1]
  by_cases h : s.data.contains '='
  · rw [if_pos h, if_pos h]
    rfl
  · rw [if_neg h, if_neg h]
    rfl

/-- C4: for sizes in `[43, 128]` the generated verifier has exactly that
length and only alphanumeric characters; for sizes outside the range the
length is 128. -/
theorem generateVerifier_length_alphabet (size : Int) (rand : Nat → Fin 62) :
    (43 ≤ size ∧ size ≤ 128 →
      (getRandomValues size rand).length = size.toNat ∧
      ∀ c ∈ (getRandomValues size rand).data, c.isAlphanum = true) ∧
    (¬(43 ≤ size ∧ size ≤ 128) → (getRandomValues size rand).length = 128) := by
  constructor
  · intro h
    constructor
    · unfold getRandomValues
      rw [if_pos h]
      show ((List.range size.toNat).map
        (fun i => possibleChars.data.getD (rand i).val ' ')).length = size.toNat
      rw [List.length_map, List.length_range]
    · intro c hc
      have hc2 : c ∈ (List.range (if 43 ≤ size ∧ size ≤ 128 then size.toNat else 128)).map
          (fun i => possibleChars.data.getD (rand i).val ' ') := hc
      rw [List.mem_map] at hc2
      obtain ⟨i, _, rfl⟩ := hc2
      exact possibleChars_alphanum (rand i)
  · intro h
    unfold getRandomValues
    rw [if_neg h]
    show ((List.range 128).map
      (fun i => possibleChars.data.getD (rand i).val ' ')).length = 128
    rw [List.length_map, List.length_range]

/-- Witness for C4: size 50 with a constant draw gives a 50-character
alphanumeric verifier. -/
theorem generateVerifier_length_alphabet_witness :
    ((43 : Int) ≤ 50 ∧ (50 : Int) ≤ 128) ∧
    ((getRandomValues 50 randW).length = (50 : Int).toNat ∧
     ∀ c ∈ (getRandomValues 50 randW).data, c.isAlphanum = true) :=
  ⟨⟨by norm_num, by norm_num⟩,
   (generateVerifier_length_alphabet 50 randW).1 ⟨by norm_num, by norm_num⟩⟩

/-- C5: the authorize builder raises the configuration error whenever
`audience`, `client_id` or `redirect_uri` is empty or absent, and the
logout builder does so whenever `client_id` or the return-to URI is empty
or absent; both are pure and perform no network call. -/
theorem buildUrls_required_fields (cfg : Auth0Config) (verifier : String)
    (loginHint connection screenHint : Option String) :
    ((truthyStr cfg.audience = false ∨ truthyStr cfg.clientId = false ∨
        truthyStr cfg.redirectUri = false) →
      prepareSignInAuthUrl cfg verifier loginHint connection screenHint =
        .error .configError) ∧
    ((truthyStr cfg.clientId = false ∨ truthyStr cfg.redirectUri = false) →
      prepareLogOutAuthUrl cfg = .error .configError) := by
  constructor
  · intro h
    have hneg : (truthyStr cfg.audience && truthyStr cfg.clientId &&
        truthyStr cfg.redirectUri) = false := by
      rcases h with h | h | h <;> simp [h]
    simp [prepareSignInAuthUrl, hneg]
  · intro h
    have hneg : (truthyStr cfg.clientId && truthyStr cfg.redirectUri) = false := by
      rcases h with h | h <;> simp [h]
    simp [prepareLogOutAuthUrl, hneg]

/-- Witness for C5: an absent audience fails the authorize builder and an
empty client id fails the logout builder. -/
theorem buildUrls_required_fields_witness :
    truthyStr cfgBad.audience = false ∧
    prepareSignInAuthUrl cfgBad "v" none none none = .error .configError ∧
    truthyStr cfgNoClient.clientId = false ∧
    prepareLogOutAuthUrl cfgNoClient = .error .configError :=
  ⟨by decide,
   (buildUrls_required_fields cfgBad "v" none none none).1 (Or.inl (by decide)),
   by decide,
   (buildUrls_required_fields cfgNoClient "v" none none none).2 (Or.inl (by decide))⟩

/-- C6: with the browser available, a cancelled logout resolves `false`
with the storage untouched, and a successful one resolves `true` with all
five keys removed. -/
theorem logOut_cancel_and_success (cfg : Auth0Config) (st : Storage) (u1 u2 : Option String)
    (hc : truthyStr cfg.clientId = true) (hr : truthyStr cfg.redirectUri = true) :
    logOut cfg true (.ok ⟨.cancel, u1⟩) st = (.ok false, st) ∧
    logOut cfg true (.ok ⟨.success, u2⟩) st = (.ok true, emptyStorage) := by
  have hok : prepareLogOutAuthUrl cfg =
      .ok ("https://" ++ jsStr cfg.domain ++ "/v2/logout" ++
        objectToQueryParams (logOutParams cfg)) := by
    simp [prepareLogOutAuthUrl, hc, hr]
  constructor
  · simp [logOut, hok]
  · simp [logOut, hok, clearStorage_eq]

/-- Witness for C6: concrete cancel and success logout runs. -/
theorem logOut_cancel_and_success_witness :
    truthyStr cfgW.clientId = true ∧ truthyStr cfgW.redirectUri = true ∧
    logOut cfgW true (.ok ⟨.cancel, none⟩) stW = (.ok false, stW) ∧
    logOut cfgW true (.ok ⟨.success, some "app://cb"⟩) stW = (.ok true, emptyStorage) :=
  ⟨by decide, by decide,
   (logOut_cancel_and_success cfgW stW none (some "app://cb") (by decide) (by decide)).1,
   (logOut_cancel_and_success cfgW stW none (some "app://cb") (by decide) (by decide)).2⟩

/-- C7: storing `{access_token: "X", refresh_token: "Y", expires_in: 3600}`
at time `t0` and reading less than 3600 seconds later returns `"X"`. -/
theorem storeTokens_roundtrip (t0 d : Nat) (st : Storage) (exch : Except Unit TokenSet)
    (hd : d < 3600000) :
    (getAccessToken false exch (t0 + d)
        (setTokens t0 ⟨some "X", some "Y", some 3600⟩ st)).1 = .ok (some "X") := by
  have hset : setTokens t0 ⟨some "X", some "Y", some 3600⟩ st =
      { st with refresh_token := some "Y", access_token := some "X",
                access_token_expire := some (t0 + 3600 * 1000) } := by
    simp [setTokens, storeRefreshToken, storeAccessToken]
  have hcond : (truthyStr (some "X") && truthyNum (some (t0 + 3600 * 1000)) &&
      decide (t0 + d ≤ (some (t0 + 3600 * 1000)).getD 0)) = true := by
    simp only [truthyStr, truthyNum, Option.getD_some, Bool.and_eq_true,
      decide_eq_true_eq, bne_iff_ne, ne_eq]
    refine ⟨⟨by decide, by omega⟩, by omega⟩
  rw [hset, getAccessToken_guard_true exch (t0 + d) _ hcond]

/-- Witness for C7: the round trip at `t0 = 0` with no clock advance. -/
theorem storeTokens_roundtrip_witness :
    (0 : Nat) < 3600000 ∧
    (getAccessToken false exchW (0 + 0)
        (setTokens 0 ⟨some "X", some "Y", some 3600⟩ stW)).1 = .ok (some "X") :=
  ⟨by norm_num, storeTokens_roundtrip 0 0 stW exchW (by norm_num)⟩

/-- C8: with every required configuration field non-empty and no hints, the
authorize URL builds successfully from the parameter list; the kept (valid)
entries carry `response_type=code` and `code_challenge_method=S256` and no
`login_hint`, `connection` or `screen_hint` key at all (null-valued entries
are dropped entirely, not rendered with empty values); and the rendered URL
contains `response_type=code` and `code_challenge_method=S256`. -/
theorem authorize_url_params (cfg : Auth0Config) (verifier : String)
    (_hdo : truthyStr cfg.domain = true) (ha : truthyStr cfg.audience = true)
    (hc : truthyStr cfg.clientId = true) (hr : truthyStr cfg.redirectUri = true) :
    prepareSignInAuthUrl cfg verifier none none none =
      .ok ("https://" ++ jsStr cfg.domain ++ "/authorize" ++
        objectToQueryParams (signInParams cfg (deriveChallenge verifier) none none none)) ∧
    ("response_type", some "code") ∈
      (signInParams cfg (deriveChallenge verifier) none none none).filter
        (fun p => p.2.isSome) ∧
    ("code_challenge_method", some "S256") ∈
      (signInParams cfg (deriveChallenge verifier) none none none).filter
        (fun p => p.2.isSome) ∧
    (∀ p ∈ (signInParams cfg (deriveChallenge verifier) none none none).filter
        (fun p => p.2.isSome),
      p.1 ≠ "login_hint" ∧ p.1 ≠ "connection" ∧ p.1 ≠ "screen_hint") ∧
    strContains "response_type=code"
      ("https://" ++ jsStr cfg.domain ++ "/authorize" ++
        objectToQueryParams (signInParams cfg (deriveChallenge verifier) none none none)) =
      true ∧
    strContains "code_challenge_method=S256"
      ("https://" ++ jsStr cfg.domain ++ "/authorize" ++
        objectToQueryParams (signInParams cfg (deriveChallenge verifier) none none none)) =
      true := by
  obtain ⟨a, haq, -⟩ := (truthyStr_iff _).mp ha
  obtain ⟨ci, hciq, -⟩ := (truthyStr_iff _).mp hc
  obtain ⟨ru, hruq, -⟩ := (truthyStr_iff _).mp hr
  have hfil : (signInParams cfg (deriveChallenge verifier) none none none).filter
      (fun p => p.2.isSome) =
      [("audience", some a),
       ("scope", some (jsOrDefault cfg.scope "offline_access openid profile email")),
       ("response_type", some "code"),
       ("client_id", some ci),
       ("redirect_uri", some ru),
       ("code_challenge", some (deriveChallenge verifier)),
       ("code_challenge_method", some "S256")] := by
    simp [signInParams, haq, hciq, hruq, jsOrNull, List.filter]
  have hurl : prepareSignInAuthUrl cfg verifier none none none =
      .ok ("https://" ++ jsStr cfg.domain ++ "/authorize" ++
        objectToQueryParams (signInParams cfg (deriveChallenge verifier) none none none)) := by
    show (if (truthyStr cfg.audience && truthyStr cfg.clientId &&
        truthyStr cfg.redirectUri) = true
      then (Except.ok ("https://" ++ jsStr cfg.domain ++ "/authorize" ++
        objectToQueryParams (signInParams cfg (deriveChallenge verifier) none none none)) :
          Except Auth0Err String)
      else .error .configError) = .ok ("https://" ++ jsStr cfg.domain ++ "/authorize" ++
        objectToQueryParams (signInParams cfg (deriveChallenge verifier) none none none))
    rw [if_pos (by simp [ha, hc, hr])]
  have hquery : objectToQueryParams (signInParams cfg (deriveChallenge verifier) none none none) =
      "?" ++ joinAmp (((signInParams cfg (deriveChallenge verifier) none none none).filter
        (fun p => p.2.isSome)).map renderParam) := by
    show (if ((signInParams cfg (deriveChallenge verifier) none none none).filter
        (fun p => p.2.isSome)).isEmpty = true
      then ""
      else "?" ++ joinAmp (((signInParams cfg (deriveChallenge verifier) none none none).filter
        (fun p => p.2.isSome)).map renderParam)) = _
    rw [hfil]
    simp only [List.isEmpty_cons, Bool.false_eq_true, if_false]
  have hrt : renderParam ("response_type", some "code") = "response_type=code" := by decide
  have hcm : renderParam ("code_challenge_method", some "S256") =
      "code_challenge_method=S256" := by decide
  have hin1 : strContains "response_type=code"
      (objectToQueryParams (signInParams cfg (deriveChallenge verifier) none none none)) =
      true := by
    rw [hquery]
    refine strContains_append_right _ "?" _ ?_
    refine strContains_joinAmp _ _ ?_
    rw [hfil]
    simp only [List.map_cons, List.map_nil, List.mem_cons]
    exact Or.inr (Or.inr (Or.inl hrt.symm))
  have hin2 : strContains "code_challenge_method=S256"
      (objectToQueryParams (signInParams cfg (deriveChallenge verifier) none none none)) =
      true := by
    rw [hquery]
    refine strContains_append_right _ "?" _ ?_
    refine strContains_joinAmp _ _ ?_
    rw [hfil]
    simp only [List.map_cons, List.map_nil, List.mem_cons]
    exact Or.inr (Or.inr (Or.inr (Or.inr (Or.inr (Or.inr (Or.inl hcm.symm))))))
  refine ⟨hurl, ?_, ?_, ?_, ?_, ?_⟩
  · rw [hfil]
    simp
  · rw [hfil]
    simp
  · rw [hfil]
    intro p hp
    simp only [List.mem_cons, List.not_mem_nil, or_false] at hp
    rcases hp with rfl | rfl | rfl | rfl | rfl | rfl | rfl <;>
      exact ⟨by simp, by simp, by simp⟩
  · exact strContains_append_right _ ("https://" ++ jsStr cfg.domain ++ "/authorize") _ hin1
  · exact strContains_append_right _ ("https://" ++ jsStr cfg.domain ++ "/authorize") _ hin2

/-- Witness for C8: the well-formed concrete configuration with verifier
`"v"` builds the expected authorize URL. -/
theorem authorize_url_params_witness :
    (truthyStr cfgW.domain = true ∧ truthyStr cfgW.audience = true ∧
     truthyStr cfgW.clientId = true ∧ truthyStr cfgW.redirectUri = true) ∧
    prepareSignInAuthUrl cfgW "v" none none none =
      .ok ("https://" ++ jsStr cfgW.domain ++ "/authorize" ++
        objectToQueryParams (signInParams cfgW (deriveChallenge "v") none none none)) :=
  ⟨⟨by decide, by decide, by decide, by decide⟩,
   (authorize_url_params cfgW "v" (by decide) (by decide) (by decide) (by decide)).1⟩

/-- C9: the derived challenge is exactly the URL-safe transform of the
base64 of the SHA-256 of the verifier bytes (a pure function, hence the
same verifier always gives the same challenge), and it never contains `+`,
`/` or `=`. -/
theorem deriveChallenge_pure_urlsafe (v : String) :
    deriveChallenge v = urlSafeB64 (String.mk (base64Encode (sha256 (utf8Bytes v)))) ∧
    (deriveChallenge v).data.all (fun c => !(c == '+' || c == '/' || c == '=')) = true :=
  ⟨rfl, urlSafeB64_all_safe (String.mk (base64Encode (sha256 (utf8Bytes v))))⟩

/-- C10: a token set with no `access_token` makes `storeAccessToken` a
no-op: the stored access token and the stored expiry are unchanged and the
expiry is not recomputed. -/
theorem storeAccessToken_skip_absent (now : Nat) (json : TokenSet) (st : Storage)
    (h : json.access_token = none) :
    storeAccessToken now json st = st ∧
    (storeAccessToken now json st).access_token = st.access_token ∧
    (storeAccessToken now json st).access_token_expire = st.access_token_expire := by
  have heq : storeAccessToken now json st = st := by
    unfold storeAccessToken
    rw [h]
  exact ⟨heq, by rw [heq], by rw [heq]⟩

/-- Witness for C10: a refresh-only token set leaves the populated storage
untouched. -/
theorem storeAccessToken_skip_absent_witness :
    (TokenSet.mk none (some "Y") (some 3600)).access_token = none ∧
    (storeAccessToken 1000 ⟨none, some "Y", some 3600⟩ stW = stW ∧
     (storeAccessToken 1000 ⟨none, some "Y", some 3600⟩ stW).access_token = stW.access_token ∧
     (storeAccessToken 1000 ⟨none, some "Y", some 3600⟩ stW).access_token_expire =
       stW.access_token_expire) :=
  ⟨rfl, storeAccessToken_skip_absent 1000 ⟨none, some "Y", some 3600⟩ stW rfl⟩

end Auth0
